import Mathlib

/-!
# Verification of the Buz manifold specification

A shallow embedding of the Buz event-collection core (envelope annotation,
schema cache, sink routing, manifold shutdown) and of the startup route
registration in `cmd/buz/app.go`, together with theorems settling the
behavioural claims of the specification.

The repository source present is `cmd/buz/app.go` (startup and route
registration), a terraform variable set and a time-utility test; the manifold,
registry cache and annotator themselves are modelled from the specification
(`spec.md`), as noted on each definition.
-/

namespace Buz

/-- Tri-state validity verdict of an envelope: `unknown → valid | invalid`
(spec §3, the `pipeline.is_valid` field). -/
inductive Validity
  | unknown
  | valid
  | invalid
deriving DecidableEq, Repr

/-- Modelled from the spec: the schema errors of §7 — `MissingSchemaKey`,
`SchemaNotFound`, `SchemaUnavailable`, `SchemaInvalid`. They become envelope
verdicts, never operation errors. -/
inductive SchemaError
  | MissingSchemaKey
  | SchemaNotFound (key : String)
  | SchemaUnavailable (key : String) (cause : String)
  | SchemaInvalid (key : String) (cause : String)
deriving DecidableEq, Repr

/-- Modelled from the spec: the `validation_error` field (§3), either a
schema-resolution error or the first payload violation (path + message). -/
inductive ValidationError
  | schemaErr (e : SchemaError)
  | violation (path : String) (msg : String)
deriving DecidableEq, Repr

/-- Modelled from the spec: the `event_meta` attributes of an envelope (§3).
Timestamps are modelled as naturals. -/
structure EventMeta where
  protocol : String
  schema_key : String
  event_type : String
  uuid : String
  created_at : Nat
  ingested_at : Nat
deriving DecidableEq, Repr

/-- Modelled from the spec: the `pipeline` attributes of an envelope (§3). -/
structure Pipeline where
  source : String
  collector : String
  processed_at : Option Nat
  is_valid : Validity
  validation_error : Option ValidationError
  annotations : List (String × String)
deriving DecidableEq, Repr

/-- The decoded event body (spec §3: a structured mapping, never interpreted
by the core); modelled as a finite string map, opaque to the manifold. -/
abbrev Payload := List (String × String)

/-- Modelled from the spec: the common internal representation of one event
(§3). -/
structure Envelope where
  event_meta : EventMeta
  pipeline : Pipeline
  payload : Payload
  context : Option Payload
  contexts : Option (List Payload)
deriving DecidableEq, Repr

/-- A compiled schema, opaque to the manifold; only its identity matters. -/
structure CompiledSchema where
  sid : Nat
deriving DecidableEq, Repr

/-- Modelled from the spec: the outcome of resolving a schema key through the
cache as seen by the annotator (§4.1: `NotFound`, `FetchFailed`,
`CompileFailed`; a cached compile failure also surfaces as `compileFailed`). -/
inductive Resolution
  | found (s : CompiledSchema)
  | notFound
  | fetchFailed (cause : String)
  | compileFailed (cause : String)
deriving DecidableEq, Repr

/-- Modelled from the spec: the annotator (§4.3 algorithm, §8 idempotence).
Turns an `unknown`-class envelope into a `valid`- or `invalid`-class one:
stamp `processed_at` and the collector metadata; an empty `schema_key` is
invalid with `MissingSchemaKey`; otherwise the cache resolution maps
`NotFound ↦ SchemaNotFound`, `FetchFailed ↦ SchemaUnavailable`,
`CompileFailed ↦ SchemaInvalid`; with a compiled schema the payload is
validated and the first violation recorded. Per §8 the call is a no-op on a
non-`unknown` envelope. The return type is `Envelope` (not a
result-or-error), so schema errors are never propagated as operation errors.
`resolve` abstracts the cache, `validate` the JSON-schema validator, `now`
the collector clock, `coll` the collector metadata. -/
def annotate (resolve : String → Resolution)
    (validate : CompiledSchema → Payload → Option (String × String))
    (now : Nat) (coll : String) (e : Envelope) : Envelope :=
  if e.pipeline.is_valid = Validity.unknown then
    let p0 : Pipeline :=
      { e.pipeline with processed_at := some now, collector := coll }
    if e.event_meta.schema_key = "" then
      { e with pipeline :=
        { p0 with is_valid := Validity.invalid,
                  validation_error :=
                    some (ValidationError.schemaErr SchemaError.MissingSchemaKey) } }
    else
      match resolve e.event_meta.schema_key with
      | Resolution.notFound =>
        { e with pipeline :=
          { p0 with is_valid := Validity.invalid,
                    validation_error :=
                      some (ValidationError.schemaErr
                        (SchemaError.SchemaNotFound e.event_meta.schema_key)) } }
      | Resolution.fetchFailed cause =>
        { e with pipeline :=
          { p0 with is_valid := Validity.invalid,
                    validation_error :=
                      some (ValidationError.schemaErr
                        (SchemaError.SchemaUnavailable e.event_meta.schema_key cause)) } }
      | Resolution.compileFailed cause =>
        { e with pipeline :=
          { p0 with is_valid := Validity.invalid,
                    validation_error :=
                      some (ValidationError.schemaErr
                        (SchemaError.SchemaInvalid e.event_meta.schema_key cause)) } }
      | Resolution.found s =>
        match validate s e.payload with
        | some pv =>
          { e with pipeline :=
            { p0 with is_valid := Validity.invalid,
                      validation_error :=
                        some (ValidationError.violation pv.1 pv.2) } }
        | none =>
          { e with pipeline :=
            { p0 with is_valid := Validity.valid, validation_error := none } }
  else e

/-- Modelled from the spec: the envelope classes a sink declares it handles
(§4.4): `valid`, `invalid`, or `all`. -/
inductive AcceptedClass
  | valid
  | invalid
  | all
deriving DecidableEq, Repr

/-- Modelled from the spec: a sink descriptor (§3). -/
structure SinkDescriptor where
  id : Nat
  name : String
  delivery_required : Bool
  accepts : AcceptedClass
deriving DecidableEq, Repr

/-- The derived envelope class (spec §3: derived from `pipeline.is_valid`,
not stored). -/
def envelopeClass (e : Envelope) : Validity :=
  e.pipeline.is_valid

/-- Modelled from the spec: whether a sink's accepted class matches a
verdict (§4.4). An `unknown` verdict matches no sink: `unknown` must be
resolved before dispatch (§3). -/
def sinkAccepts (s : SinkDescriptor) (v : Validity) : Bool :=
  match s.accepts, v with
  | AcceptedClass.all, Validity.valid => true
  | AcceptedClass.all, Validity.invalid => true
  | AcceptedClass.valid, Validity.valid => true
  | AcceptedClass.invalid, Validity.invalid => true
  | _, _ => false

/-- Modelled from the spec: the manifold routes an (annotated) envelope only
to the sinks whose accepted class matches its verdict (§4.4). -/
def routeToSinks (sinks : List SinkDescriptor) (e : Envelope) :
    List (SinkDescriptor × Envelope) :=
  (sinks.filter (fun s => sinkAccepts s (envelopeClass e))).map (fun s => (s, e))

/-- Modelled from the spec: one annotator worker's handling of one ingress
envelope (§4.5 topology): annotate, then fan out to the matching sinks. The
pairs produced here are what the per-sink queues buffer and the publisher
loops pass to `batch_publish`. -/
def processEnvelope (resolve : String → Resolution)
    (validate : CompiledSchema → Payload → Option (String × String))
    (now : Nat) (coll : String) (sinks : List SinkDescriptor) (e : Envelope) :
    List (SinkDescriptor × Envelope) :=
  routeToSinks sinks (annotate resolve validate now coll e)

/-- Modelled from the spec: the publisher retry loop over one batch (§4.5
retry policy, §4.4 `batch_publish → (delivered_count, error)`). Element `r`
of `responses` is the count the sink reports delivered on that attempt; the
still-undelivered suffix is retried on the next attempt. The result is the
sequence of envelopes the sink actually observed, across all attempts. -/
def retryDeliver : List Nat → List Envelope → List Envelope
  | [], _ => []
  | r :: rs, pending => pending.take r ++ retryDeliver rs (pending.drop r)

/-- Modelled from the spec: everything one sink observes over a run: the
sink's queue is cut into consecutive batches (§4.5 batching: up to `B`
envelopes or `T` milliseconds, hence an order-preserving partition of the
FIFO queue) and each batch goes through the retry loop. -/
def sinkObserved (responses : List (List Nat)) (batches : List (List Envelope)) :
    List Envelope :=
  (List.zipWith retryDeliver responses batches).flatten

/-- Modelled from the spec: the outcome of `enqueue` (§6:
`{Accepted, Overloaded, ShuttingDown}`). -/
inductive EnqueueResult
  | Accepted
  | Overloaded
  | ShuttingDown
deriving DecidableEq, Repr

/-- A command issued to the manifold: an adapter `enqueue` or `shutdown`. -/
inductive Cmd
  | enqueue (e : Envelope)
  | shutdown
deriving DecidableEq, Repr

/-- An observable event of a manifold run: an enqueue outcome, or an
invocation of a sink's `batch_publish`, `flush` or `close`. -/
inductive Evt
  | enq (r : EnqueueResult)
  | publishCall (sinkId : Nat) (batch : List Envelope)
  | flushCall (sinkId : Nat)
  | closeCall (sinkId : Nat)
deriving DecidableEq, Repr

/-- Modelled from the spec: the manifold's buffering state (§4.5 topology):
whether ingress is closed, the ingress queue, and one queue per sink. -/
structure MState where
  closed : Bool
  ingress : List Envelope
  queues : List (Nat × List Envelope)
deriving DecidableEq, Repr

/-- Append an envelope to the queue of sink `i`. -/
def pushSink (queues : List (Nat × List Envelope)) (i : Nat) (e : Envelope) :
    List (Nat × List Envelope) :=
  queues.map (fun p => if p.1 = i then (p.1, p.2 ++ [e]) else p)

/-- Drain the ingress queue into the per-sink queues: each envelope goes to
the queues of the sinks `route` selects for it (the annotate-and-filter step
of §4.5, abstracted by `route`). -/
def routeAll (route : Envelope → List Nat) (queues : List (Nat × List Envelope))
    (ingress : List Envelope) : List (Nat × List Envelope) :=
  ingress.foldl (fun qs e => (route e).foldl (fun qs2 i => pushSink qs2 i e) qs) queues

/-- Modelled from the spec: one manifold step (§4.5 `enqueue`, §5 shutdown
phases). `enqueue` on a closed manifold is rejected with `ShuttingDown`; on a
full ingress with `Overloaded`. `shutdown` on an open manifold runs the
phases of §5: drain ingress through the workers into the sink queues, drain
each sink queue with a final `batch_publish`, issue a final `flush` per sink,
then `close` every sink, leaving every queue empty and ingress closed; a
`shutdown` of an already-closed manifold is a no-op (the publisher loops have
already observed their sentinel and exited). -/
def mstep (qcap : Nat) (route : Envelope → List Nat) (s : MState) :
    Cmd → MState × List Evt
  | Cmd.enqueue e =>
    if s.closed then (s, [Evt.enq EnqueueResult.ShuttingDown])
    else if qcap ≤ s.ingress.length then (s, [Evt.enq EnqueueResult.Overloaded])
    else ({ s with ingress := s.ingress ++ [e] }, [Evt.enq EnqueueResult.Accepted])
  | Cmd.shutdown =>
    if s.closed then (s, [])
    else
      let qs := routeAll route s.queues s.ingress
      ({ closed := true, ingress := [],
         queues := qs.map (fun p => (p.1, ([] : List Envelope))) },
       (qs.filterMap (fun p =>
          if p.2.isEmpty then none else some (Evt.publishCall p.1 p.2)))
         ++ qs.map (fun p => Evt.flushCall p.1)
         ++ qs.map (fun p => Evt.closeCall p.1))

/-- Run the manifold over a command list, accumulating the event trace. -/
def mrun (qcap : Nat) (route : Envelope → List Nat) :
    MState → List Cmd → MState × List Evt
  | s, [] => (s, [])
  | s, c :: cs =>
    let r1 := mstep qcap route s c
    let r2 := mrun qcap route r1.1 cs
    (r2.1, r1.2 ++ r2.2)

/-- The manifold's initial state: open ingress, all queues empty (§4.5
`initialize` builds the queues and starts the workers). -/
def initMState (sinkIds : List Nat) : MState :=
  { closed := false, ingress := [], queues := sinkIds.map (fun i => (i, [])) }

/-- A closed manifold holds no buffered envelope (the drain phases of §5 ran
before ingress was marked closed). -/
def MClosedEmpty (s : MState) : Prop :=
  s.closed = true → (s.ingress = [] ∧ ∀ p ∈ s.queues, p.2 = ([] : List Envelope))

/-- Association-list lookup with byte-exact string keys (spec §3: schema keys
are opaque, comparison is byte-exact). -/
def alookup {α : Type} : List (String × α) → String → Option α
  | [], _ => none
  | (k0, v) :: rest, k => if k0 = k then some v else alookup rest k

/-- Association-list insert-or-replace. -/
def aset {α : Type} : List (String × α) → String → α → List (String × α)
  | [], k, v => [(k, v)]
  | (k0, v0) :: rest, k, v =>
    if k0 = k then (k, v) :: rest else (k0, v0) :: aset rest k v

/-- Modelled from the spec: one cache entry (§3 Schema, §4.1 cache contract):
raw bytes, the compiled schema, a fetched-at timestamp, an optional compile
error. -/
structure CacheEntry where
  raw_bytes : List Nat
  compiled : Option CompiledSchema
  fetched_at : Nat
  compile_error : Option String
deriving DecidableEq, Repr

/-- Modelled from the spec: a cache slot is `Ready(entry)` or
`Pending(waiters)` (§9 design note on schema cache coalescing). -/
inductive CacheSlot
  | pending (waiters : List Nat)
  | ready (entry : CacheEntry)
deriving DecidableEq, Repr

/-- State of the coalescing cache: the slot map, the log of backend `get`
invocations, and the entries handed back to callers. -/
structure CoalesceState where
  slots : List (String × CacheSlot)
  backendCalls : List String
  results : List (Nat × CacheEntry)
deriving DecidableEq, Repr

/-- An event of the coalescing cache: a caller issues `get(key)`, or the
single in-flight resolution of `key` completes with an entry. -/
inductive CacheOp
  | get (caller : Nat) (key : String)
  | complete (key : String) (entry : CacheEntry)
deriving DecidableEq, Repr

/-- Modelled from the spec: one step of the coalescing cache (§4.1
at-most-one concurrent fetch per key; §9 design note). A `get` on an absent
key installs a `pending` slot with the caller as first waiter and invokes the
backend; a `get` on a pending key only registers the caller as a waiter; a
`get` on a ready key hands back the entry. A completion publishes the entry
to every waiter. -/
def cstep (s : CoalesceState) : CacheOp → CoalesceState
  | CacheOp.get caller k =>
    match alookup s.slots k with
    | none =>
      { s with slots := aset s.slots k (CacheSlot.pending [caller]),
               backendCalls := s.backendCalls ++ [k] }
    | some (CacheSlot.pending ws) =>
      { s with slots := aset s.slots k (CacheSlot.pending (ws ++ [caller])) }
    | some (CacheSlot.ready ent) =>
      { s with results := s.results ++ [(caller, ent)] }
  | CacheOp.complete k ent =>
    match alookup s.slots k with
    | some (CacheSlot.pending ws) =>
      { s with slots := aset s.slots k (CacheSlot.ready ent),
               results := s.results ++ ws.map (fun c => (c, ent)) }
    | _ => s

/-- Run the coalescing cache over an interleaving of events. -/
def crun : CoalesceState → List CacheOp → CoalesceState
  | s, [] => s
  | s, op :: ops => crun (cstep s op) ops

/-- The empty coalescing-cache state. -/
def initCState : CoalesceState :=
  { slots := [], backendCalls := [], results := [] }

/-- The callers among `gets` that asked for key `k`, in order. -/
def callersFor (k : String) (gets : List (Nat × String)) : List Nat :=
  (gets.filter (fun p => p.2 == k)).map (fun p => p.1)

/-- Shape of the coalescing-cache state after an interleaving of `get`
events only (no resolution has completed yet): every requested key holds a
`pending` slot listing exactly its callers, the backend was invoked exactly
once per requested key, and nobody has received an entry yet. -/
def GetsShape (gets : List (Nat × String)) (s : CoalesceState) : Prop :=
  (∀ k, alookup s.slots k =
    if callersFor k gets = [] then none
    else some (CacheSlot.pending (callersFor k gets))) ∧
  (∀ k, s.backendCalls.count k = if callersFor k gets = [] then 0 else 1) ∧
  s.results = []

/-- Modelled from the spec: the result of a registry backend `get(key) →
(bytes, fetch_error)` (§4.1 backends, errors). -/
inductive FetchResult
  | ok (bytes : List Nat)
  | notFound
  | fetchFailed (cause : String)
deriving DecidableEq, Repr

/-- Modelled from the spec: the resolution errors a cache `get` can return to
its caller (§4.1); compile failures are not errors here because they are
cached as entries carrying `compile_error`. -/
inductive ResolveError
  | NotFound
  | FetchFailed (cause : String)
deriving DecidableEq, Repr

/-- Modelled from the spec: the schema cache's entry map (§4.1 cache
contract: a mapping from schema key to entry, keys unique). -/
structure SchemaCache where
  entries : List (String × CacheEntry)
deriving DecidableEq, Repr

/-- Modelled from the spec: time-based eviction (§4.1): with no TTL
configured nothing expires; with TTL `t`, an entry older than `t` is treated
as a miss. -/
def entryExpired (ttl : Option Nat) (now : Nat) (ent : CacheEntry) : Bool :=
  match ttl with
  | none => false
  | some t => decide (ent.fetched_at + t ≤ now)

/-- Modelled from the spec: build the cache entry for freshly fetched bytes
(§4.1): compile them; a compile failure yields an entry carrying
`compile_error` — such entries are cached too, to avoid re-compile storms. -/
def compileEntry (compile : List Nat → Except String CompiledSchema)
    (now : Nat) (bytes : List Nat) : CacheEntry :=
  match compile bytes with
  | Except.ok cs =>
    { raw_bytes := bytes, compiled := some cs, fetched_at := now, compile_error := none }
  | Except.error msg =>
    { raw_bytes := bytes, compiled := none, fetched_at := now, compile_error := some msg }

/-- Modelled from the spec: the miss path of `get` (§4.1): fetch from the
backend; `NotFound` and `FetchFailed` are returned as resolution errors
without touching the cache; fetched bytes are compiled, inserted (compile
failures included) and returned. -/
def cacheFetch (backend : String → FetchResult)
    (compile : List Nat → Except String CompiledSchema)
    (now : Nat) (c : SchemaCache) (k : String) :
    Except ResolveError CacheEntry × SchemaCache :=
  match backend k with
  | FetchResult.notFound => (Except.error ResolveError.NotFound, c)
  | FetchResult.fetchFailed cause => (Except.error (ResolveError.FetchFailed cause), c)
  | FetchResult.ok bytes =>
    let ent := compileEntry compile now bytes
    (Except.ok ent, { entries := aset c.entries k ent })

/-- Modelled from the spec: `get(key)` (§4.1 cache contract): return the
cached entry when present and not expired; otherwise fetch from the backend,
compile, insert, and return. Expired entries are treated as misses. -/
def cacheGet (backend : String → FetchResult)
    (compile : List Nat → Except String CompiledSchema)
    (ttl : Option Nat) (now : Nat) (c : SchemaCache) (k : String) :
    Except ResolveError CacheEntry × SchemaCache :=
  match alookup c.entries k with
  | some ent =>
    if entryExpired ttl now ent then cacheFetch backend compile now c k
    else (Except.ok ent, c)
  | none => cacheFetch backend compile now c k

/-- HTTP method of a registered route (`cmd/buz/app.go`). -/
inductive Method
  | GET
  | POST
deriving DecidableEq, Repr

/-- The route paths registered by `cmd/buz/app.go` (the path constants of the
`constants` and `registry` packages, kept symbolic). -/
inductive OpsPath
  | stats
  | routeOverview
  | configOverview
  | cachePurge
  | schemas
deriving DecidableEq, Repr

/-- The value a route's handler is constructed from in `cmd/buz/app.go`:
`collectorMeta` for `handler.StatsHandler(a.collectorMeta)`, `configValue`
for the handlers over `*a.config`, `registryHandle` for the handlers over
`a.manifold.GetRegistry()`. `manifoldStats` is the source the spec
prescribes for the stats route — a handler fed from the manifold's
`get_stats()` — and is listed so that its absence can be stated. -/
inductive HandlerArg
  | collectorMeta
  | configValue
  | registryHandle
  | manifoldStats
deriving DecidableEq, Repr

/-- A route registration performed by `cmd/buz/app.go`. -/
structure RegisteredRoute where
  method : Method
  path : OpsPath
  handler : HandlerArg
deriving DecidableEq, Repr

/-- Embedding of `App.initializeOpsRoutes` (`cmd/buz/app.go` lines 158–167):
always registers `GET` stats served from `handler.StatsHandler(a.collectorMeta)`
(the line carries a FIXME to pass the manifold instead) and `GET` route
overview from the config; registers the config overview route only when
`App.EnableConfigRoute` is set. -/
def initializeOpsRoutes (enableConfigRoute : Bool) : List RegisteredRoute :=
  [{ method := Method.GET, path := OpsPath.stats, handler := HandlerArg.collectorMeta },
   { method := Method.GET, path := OpsPath.routeOverview, handler := HandlerArg.configValue }]
  ++ (if enableConfigRoute then
      [{ method := Method.GET, path := OpsPath.configOverview, handler := HandlerArg.configValue }]
      else [])

/-- Embedding of `App.initializeSchemaCacheRoutes` (`cmd/buz/app.go` lines
169–180): when `Registry.Purge.Enabled`, a `GET` and a `POST` cache-purge
route over the registry handle; when `Registry.Http.Enabled`, a `GET`
schema-serving route over the registry handle. -/
def initializeSchemaCacheRoutes (purgeEnabled httpEnabled : Bool) :
    List RegisteredRoute :=
  (if purgeEnabled then
    [{ method := Method.GET, path := OpsPath.cachePurge, handler := HandlerArg.registryHandle },
     { method := Method.POST, path := OpsPath.cachePurge, handler := HandlerArg.registryHandle }]
   else [])
  ++ (if httpEnabled then
    [{ method := Method.GET, path := OpsPath.schemas, handler := HandlerArg.registryHandle }]
    else [])

/-- Embedding of `App.initializeManifold` (`cmd/buz/app.go` lines 88–106):
initialize the registry, build and initialize the sinks, initialize the
manifold — each failure hits `log.Fatal`, modelled as the error aborting the
startup sequence. `rInit` stands for `registry.Initialize(a.config.Registry)`,
`sInit` for `sink.BuildAndInitializeSinks(a.config.Sinks)`, `mInit` for
`m.Initialize(&registry, &sinks, a.config, a.collectorMeta)`. -/
def initializeManifold (rInit : Except String Unit)
    (sInit : Except String (List SinkDescriptor))
    (mInit : List SinkDescriptor → Except String Unit) : Except String Unit :=
  match rInit with
  | Except.error msg => Except.error msg
  | Except.ok _ =>
    match sInit with
    | Except.error msg => Except.error msg
    | Except.ok sinks =>
      match mInit sinks with
      | Except.error msg => Except.error msg
      | Except.ok _ => Except.ok ()

/-- Outcome of process startup: `log.Fatal` terminates the process before it
serves anything; otherwise the app proceeds to `Run` and serves. -/
inductive StartupOutcome
  | fatalExit
  | serving
deriving DecidableEq, Repr

/-- Embedding of the startup control flow (`App.Initialize` then `App.Run`,
`cmd/buz/app.go`): a `log.Fatal` inside `initializeManifold` exits the
process; only a fully successful initialization reaches the serving modes. -/
def appStartup (rInit : Except String Unit)
    (sInit : Except String (List SinkDescriptor))
    (mInit : List SinkDescriptor → Except String Unit) : StartupOutcome :=
  match initializeManifold rInit sInit mInit with
  | Except.error _ => StartupOutcome.fatalExit
  | Except.ok _ => StartupOutcome.serving

/-- A concrete event-meta record, used by the evaluation witnesses. -/
def sampleMeta : EventMeta :=
  { protocol := "snowplow", schema_key := "iglu:com.acme/click/jsonschema/1-0-0",
    event_type := "click", uuid := "u-1", created_at := 0, ingested_at := 1 }

/-- A concrete pipeline record with an undecided verdict. -/
def samplePipeline : Pipeline :=
  { source := "snowplow", collector := "", processed_at := none,
    is_valid := Validity.unknown, validation_error := none, annotations := [] }

/-- A concrete `unknown`-class envelope with a schema key. -/
def sampleEnvelope : Envelope :=
  { event_meta := sampleMeta, pipeline := samplePipeline,
    payload := [], context := none, contexts := none }

/-- A concrete `unknown`-class envelope with an empty schema key. -/
def sampleEnvelopeNoKey : Envelope :=
  { sampleEnvelope with event_meta := { sampleMeta with schema_key := "" } }

/-- A second concrete envelope, distinct from `sampleEnvelope`. -/
def sampleEnvelope2 : Envelope :=
  { sampleEnvelope with event_meta := { sampleMeta with uuid := "u-2" } }

/-- A concrete cache entry. -/
def sampleEntry : CacheEntry :=
  { raw_bytes := [123], compiled := some { sid := 1 }, fetched_at := 0,
    compile_error := none }

/-- A resolver that reports every key missing. -/
def resolveNotFound : String → Resolution :=
  fun _ => Resolution.notFound

/-- A validator that accepts every payload. -/
def validateOk : CompiledSchema → Payload → Option (String × String) :=
  fun _ _ => none

/-- A routing function sending every envelope to sink 0. -/
def routeToZero : Envelope → List Nat :=
  fun _ => [0]

end Buz

namespace Buz

/-- After annotating an `unknown` envelope the verdict is decided and
`processed_at` is stamped with the collector clock. -/
theorem annotate_resolves (resolve : String → Resolution)
    (validate : CompiledSchema → Payload → Option (String × String))
    (now : Nat) (coll : String) (e : Envelope)
    (hu : e.pipeline.is_valid = Validity.unknown) :
    (annotate resolve validate now coll e).pipeline.is_valid ≠ Validity.unknown ∧
    (annotate resolve validate now coll e).pipeline.processed_at = some now := by
  unfold annotate
  rw [if_pos hu]
  by_cases hk : e.event_meta.schema_key = ""
  · simp [hk]
  · rw [if_neg hk]
    cases hres : resolve e.event_meta.schema_key with
    | found s =>
      cases hv : validate s e.payload with
      | some pv => simp [hv]
      | none => simp [hv]
    | notFound => simp
    | fetchFailed cause => simp
    | compileFailed cause => simp

/-- Annotating an envelope whose verdict is already decided changes
nothing. -/
theorem annotate_of_decided (resolve : String → Resolution)
    (validate : CompiledSchema → Payload → Option (String × String))
    (now : Nat) (coll : String) (e : Envelope)
    (hd : e.pipeline.is_valid ≠ Validity.unknown) :
    annotate resolve validate now coll e = e := by
  unfold annotate
  rw [if_neg hd]

/-- C1: for every envelope processed by the annotator, an empty `schema_key`
marks it invalid with `MissingSchemaKey`, and otherwise the cache resolution
outcome maps to the verdict error as `NotFound ↦ SchemaNotFound(key)`,
`FetchFailed ↦ SchemaUnavailable(key, cause)`,
`CompileFailed ↦ SchemaInvalid(key, cause)`; in every case the schema error
becomes an envelope verdict (the annotator returns an envelope, never an
operation error). -/
theorem claim_C1_schema_error_mapping (resolve : String → Resolution)
    (validate : CompiledSchema → Payload → Option (String × String))
    (now : Nat) (coll : String) (e : Envelope)
    (hu : e.pipeline.is_valid = Validity.unknown) :
    (e.event_meta.schema_key = "" →
      (annotate resolve validate now coll e).pipeline.is_valid = Validity.invalid ∧
      (annotate resolve validate now coll e).pipeline.validation_error =
        some (ValidationError.schemaErr SchemaError.MissingSchemaKey)) ∧
    (e.event_meta.schema_key ≠ "" →
      (resolve e.event_meta.schema_key = Resolution.notFound →
        (annotate resolve validate now coll e).pipeline.is_valid = Validity.invalid ∧
        (annotate resolve validate now coll e).pipeline.validation_error =
          some (ValidationError.schemaErr
            (SchemaError.SchemaNotFound e.event_meta.schema_key))) ∧
      (∀ cause, resolve e.event_meta.schema_key = Resolution.fetchFailed cause →
        (annotate resolve validate now coll e).pipeline.is_valid = Validity.invalid ∧
        (annotate resolve validate now coll e).pipeline.validation_error =
          some (ValidationError.schemaErr
            (SchemaError.SchemaUnavailable e.event_meta.schema_key cause))) ∧
      (∀ cause, resolve e.event_meta.schema_key = Resolution.compileFailed cause →
        (annotate resolve validate now coll e).pipeline.is_valid = Validity.invalid ∧
        (annotate resolve validate now coll e).pipeline.validation_error =
          some (ValidationError.schemaErr
            (SchemaError.SchemaInvalid e.event_meta.schema_key cause)))) := by
  constructor
  · intro hk
    unfold annotate
    rw [if_pos hu, if_pos hk]
    exact ⟨rfl, rfl⟩
  · intro hk
    refine ⟨?_, ?_, ?_⟩
    · intro hres
      unfold annotate
      rw [if_pos hu, if_neg hk, hres]
      exact ⟨rfl, rfl⟩
    · intro cause hres
      unfold annotate
      rw [if_pos hu, if_neg hk, hres]
      exact ⟨rfl, rfl⟩
    · intro cause hres
      unfold annotate
      rw [if_pos hu, if_neg hk, hres]
      exact ⟨rfl, rfl⟩

/-- Evaluation witness for C1 at concrete envelopes: one with an empty
schema key, one whose key the registry reports missing. -/
theorem claim_C1_schema_error_mapping_witness :
    (sampleEnvelopeNoKey.pipeline.is_valid = Validity.unknown ∧
      (annotate resolveNotFound validateOk 7 "buz" sampleEnvelopeNoKey).pipeline.validation_error =
        some (ValidationError.schemaErr SchemaError.MissingSchemaKey)) ∧
    (sampleEnvelope.pipeline.is_valid = Validity.unknown ∧
      (annotate resolveNotFound validateOk 7 "buz" sampleEnvelope).pipeline.validation_error =
        some (ValidationError.schemaErr
          (SchemaError.SchemaNotFound "iglu:com.acme/click/jsonschema/1-0-0"))) := by
  constructor
  · refine ⟨by decide, ?_⟩
    exact ((claim_C1_schema_error_mapping resolveNotFound validateOk 7 "buz"
      sampleEnvelopeNoKey (by decide)).1 (by decide)).2
  · refine ⟨by decide, ?_⟩
    exact (((claim_C1_schema_error_mapping resolveNotFound validateOk 7 "buz"
      sampleEnvelope (by decide)).2 (by decide)).1 (by decide)).2

/-- C7: the annotator is idempotent — `annotate (annotate e) = annotate e` —
and annotating an envelope whose class is already `valid` or `invalid`
(non-`unknown`) leaves it unchanged. -/
theorem claim_C7_annotate_idempotent (resolve : String → Resolution)
    (validate : CompiledSchema → Payload → Option (String × String))
    (now : Nat) (coll : String) (e : Envelope) :
    annotate resolve validate now coll (annotate resolve validate now coll e) =
      annotate resolve validate now coll e ∧
    (e.pipeline.is_valid ≠ Validity.unknown →
      annotate resolve validate now coll e = e) := by
  constructor
  · by_cases hu : e.pipeline.is_valid = Validity.unknown
    · exact annotate_of_decided resolve validate now coll _
        (annotate_resolves resolve validate now coll e hu).1
    · rw [annotate_of_decided resolve validate now coll e hu]
      exact annotate_of_decided resolve validate now coll e hu
  · exact annotate_of_decided resolve validate now coll e

/-- Evaluation witness for C7 at a concrete envelope: idempotence on an
`unknown` envelope and the no-op on its (decided) annotation. -/
theorem claim_C7_annotate_idempotent_witness :
    (annotate resolveNotFound validateOk 7 "buz"
       (annotate resolveNotFound validateOk 7 "buz" sampleEnvelope) =
     annotate resolveNotFound validateOk 7 "buz" sampleEnvelope) ∧
    ((annotate resolveNotFound validateOk 7 "buz" sampleEnvelope).pipeline.is_valid ≠
        Validity.unknown ∧
     annotate resolveNotFound validateOk 7 "buz"
       (annotate resolveNotFound validateOk 7 "buz" sampleEnvelope) =
     annotate resolveNotFound validateOk 7 "buz" sampleEnvelope) :=
  ⟨(claim_C7_annotate_idempotent resolveNotFound validateOk 7 "buz" sampleEnvelope).1,
   by decide,
   (claim_C7_annotate_idempotent resolveNotFound validateOk 7 "buz"
     (annotate resolveNotFound validateOk 7 "buz" sampleEnvelope)).2 (by decide)⟩

/-- C2: every envelope the manifold hands to a sink (every pair produced by
`processEnvelope`, which is what the per-sink queues buffer and the
publisher loops pass to `batch_publish`) carries a decided verdict — `valid`
or `invalid`, never `unknown` — and a stamped `processed_at`. -/
theorem claim_C2_sink_envelopes_decided (resolve : String → Resolution)
    (validate : CompiledSchema → Payload → Option (String × String))
    (now : Nat) (coll : String) (sinks : List SinkDescriptor) (e : Envelope)
    (hu : e.pipeline.is_valid = Validity.unknown) :
    ∀ p ∈ processEnvelope resolve validate now coll sinks e,
      p.2.pipeline.is_valid ≠ Validity.unknown ∧
      p.2.pipeline.processed_at = some now := by
  intro p hp
  have h2 : p.2 = annotate resolve validate now coll e := by
    rcases List.mem_map.mp hp with ⟨s, _, rfl⟩
    rfl
  rw [h2]
  exact annotate_resolves resolve validate now coll e hu

/-- Evaluation witness for C2 at a concrete envelope and sink set. -/
theorem claim_C2_sink_envelopes_decided_witness :
    sampleEnvelope.pipeline.is_valid = Validity.unknown ∧
    ((({ id := 0, name := "stdout", delivery_required := true,
         accepts := AcceptedClass.all },
       annotate resolveNotFound validateOk 7 "buz" sampleEnvelope) :
        SinkDescriptor × Envelope) ∈
      processEnvelope resolveNotFound validateOk 7 "buz"
        [{ id := 0, name := "stdout", delivery_required := true,
           accepts := AcceptedClass.all }] sampleEnvelope) ∧
    (annotate resolveNotFound validateOk 7 "buz" sampleEnvelope).pipeline.is_valid ≠
      Validity.unknown := by
  refine ⟨by decide, by decide, ?_⟩
  exact (claim_C2_sink_envelopes_decided resolveNotFound validateOk 7 "buz"
    [{ id := 0, name := "stdout", delivery_required := true,
       accepts := AcceptedClass.all }] sampleEnvelope (by decide)
    ({ id := 0, name := "stdout", delivery_required := true,
       accepts := AcceptedClass.all },
     annotate resolveNotFound validateOk 7 "buz" sampleEnvelope) (by decide)).1

end Buz

namespace Buz

/-- The retry loop delivers a sub-sequence of the batch: an attempt delivers
a prefix of what is still pending, and only the undelivered suffix is
retried. -/
theorem retryDeliver_sublist (rs : List Nat) (pending : List Envelope) :
    List.Sublist (retryDeliver rs pending) pending := by
  induction rs generalizing pending with
  | nil => exact List.nil_sublist pending
  | cons r rs ih =>
    have h : List.Sublist (pending.take r ++ retryDeliver rs (pending.drop r))
        (pending.take r ++ pending.drop r) :=
      (ih (pending.drop r)).append_left (pending.take r)
    have heq : pending.take r ++ pending.drop r = pending :=
      List.take_append_drop r pending
    rw [heq] at h
    exact h

/-- What a sink observes is a sub-sequence of its queue: the queue is an
order-preserving concatenation of batches, and each batch passes through the
retry loop. -/
theorem sinkObserved_sublist (responses : List (List Nat))
    (batches : List (List Envelope)) :
    List.Sublist (sinkObserved responses batches) batches.flatten := by
  induction batches generalizing responses with
  | nil =>
    cases responses with
    | nil => exact List.nil_sublist _
    | cons r rs => exact List.nil_sublist _
  | cons b bs ih =>
    cases responses with
    | nil => exact List.nil_sublist _
    | cons r rs =>
      have h1 := retryDeliver_sublist r b
      have h2 := ih rs
      exact h1.append h2

/-- C3: at-most-once delivery per sink. If an envelope sits at most once in
a sink's queue (which holds for every envelope `enqueue` accepted, since the
annotator enqueues it at most once per matching sink), then across all
batches and all `batch_publish` retries the sink observes it at most once:
an erroring attempt reports how much of the batch was delivered and only the
undelivered remainder is retried. -/
theorem claim_C3_at_most_once_delivery (responses : List (List Nat))
    (batches : List (List Envelope)) (q : List Envelope) (e : Envelope)
    (hjoin : batches.flatten = q) (hq : q.count e ≤ 1) :
    (sinkObserved responses batches).count e ≤ 1 := by
  have h := (sinkObserved_sublist responses batches).count_le e
  rw [hjoin] at h
  exact le_trans h hq

/-- Evaluation witness for C3: a two-envelope queue cut into two batches,
the first delivered on a partial-success retry, the second on its first
attempt. -/
theorem claim_C3_at_most_once_delivery_witness :
    ([[sampleEnvelope], [sampleEnvelope2]] :
        List (List Envelope)).flatten = [sampleEnvelope, sampleEnvelope2] ∧
    ([sampleEnvelope, sampleEnvelope2] : List Envelope).count sampleEnvelope ≤ 1 ∧
    (sinkObserved [[0, 1], [1]] [[sampleEnvelope], [sampleEnvelope2]]).count
      sampleEnvelope ≤ 1 := by
  refine ⟨by decide, by decide, ?_⟩
  exact claim_C3_at_most_once_delivery [[0, 1], [1]]
    [[sampleEnvelope], [sampleEnvelope2]] [sampleEnvelope, sampleEnvelope2]
    sampleEnvelope (by decide) (by decide)

end Buz

namespace Buz

/-- A step taken on a closed manifold changes nothing and can only reject an
enqueue with `ShuttingDown`. -/
theorem mstep_closed (qcap : Nat) (route : Envelope → List Nat) (s : MState)
    (c : Cmd) (h : s.closed = true) :
    (mstep qcap route s c).1 = s ∧
    ∀ ev ∈ (mstep qcap route s c).2, ev = Evt.enq EnqueueResult.ShuttingDown := by
  cases c with
  | enqueue e => simp [mstep, h]
  | shutdown => simp [mstep, h]

/-- A run started on a closed manifold changes nothing and emits only
`ShuttingDown` rejections: no `batch_publish`, no `flush`, no `close`. -/
theorem mrun_closed (qcap : Nat) (route : Envelope → List Nat) (s : MState)
    (cmds : List Cmd) (h : s.closed = true) :
    (mrun qcap route s cmds).1 = s ∧
    ∀ ev ∈ (mrun qcap route s cmds).2, ev = Evt.enq EnqueueResult.ShuttingDown := by
  induction cmds with
  | nil => exact ⟨rfl, by intro ev hev; simp [mrun] at hev⟩
  | cons c cs ih =>
    have h1 := mstep_closed qcap route s c h
    constructor
    · show (mrun qcap route (mstep qcap route s c).1 cs).1 = s
      rw [h1.1]
      exact ih.1
    · intro ev hev
      show ev = Evt.enq EnqueueResult.ShuttingDown
      have : ev ∈ (mstep qcap route s c).2 ++ (mrun qcap route (mstep qcap route s c).1 cs).2 := hev
      rcases List.mem_append.mp this with hl | hr
      · exact h1.2 ev hl
      · rw [h1.1] at hr
        exact ih.2 ev hr

/-- The closed-implies-drained invariant is preserved by every manifold
step. -/
theorem mstep_preserves_MClosedEmpty (qcap : Nat) (route : Envelope → List Nat)
    (s : MState) (c : Cmd) (h : MClosedEmpty s) :
    MClosedEmpty (mstep qcap route s c).1 := by
  cases c with
  | enqueue e =>
    by_cases hc : s.closed = true
    · simpa [mstep, hc] using h
    · have hc' : s.closed = false := by
        cases hcl : s.closed with
        | true => exact absurd hcl hc
        | false => rfl
      by_cases hq : qcap ≤ s.ingress.length
      · simpa [mstep, hc', hq] using h
      · intro hcl
        simp [mstep, hc', hq] at hcl
  | shutdown =>
    by_cases hc : s.closed = true
    · simpa [mstep, hc] using h
    · have hc' : s.closed = false := by
        cases hcl : s.closed with
        | true => exact absurd hcl hc
        | false => rfl
      intro _
      refine ⟨by simp [mstep, hc'], ?_⟩
      have hqs : (mstep qcap route s Cmd.shutdown).1.queues =
          (routeAll route s.queues s.ingress).map (fun p => (p.1, ([] : List Envelope))) := by
        simp [mstep, hc']
      intro p hp
      rw [hqs] at hp
      rcases List.mem_map.mp hp with ⟨a, _, rfl⟩
      rfl

/-- The closed-implies-drained invariant is preserved by whole runs. -/
theorem mrun_preserves_MClosedEmpty (qcap : Nat) (route : Envelope → List Nat)
    (s : MState) (cmds : List Cmd) (h : MClosedEmpty s) :
    MClosedEmpty (mrun qcap route s cmds).1 := by
  induction cmds generalizing s with
  | nil => exact h
  | cons c cs ih =>
    show MClosedEmpty (mrun qcap route (mstep qcap route s c).1 cs).1
    exact ih _ (mstep_preserves_MClosedEmpty qcap route s c h)

/-- After a `shutdown` step the manifold is closed and fully drained. -/
theorem mstep_shutdown_drains (qcap : Nat) (route : Envelope → List Nat)
    (s : MState) (h : MClosedEmpty s) :
    ((mstep qcap route s Cmd.shutdown).1).closed = true ∧
    ((mstep qcap route s Cmd.shutdown).1).ingress = [] ∧
    ∀ p ∈ ((mstep qcap route s Cmd.shutdown).1).queues, p.2 = ([] : List Envelope) := by
  by_cases hc : s.closed = true
  · rcases h hc with ⟨hi, hq⟩
    simp only [mstep, hc]
    exact ⟨by simpa using hc, by simpa using hi, by simpa using hq⟩
  · have hc' : s.closed = false := by
      cases hcl : s.closed with
      | true => exact absurd hcl hc
      | false => rfl
    refine ⟨by simp [mstep, hc'], by simp [mstep, hc'], ?_⟩
    have hqs : (mstep qcap route s Cmd.shutdown).1.queues =
        (routeAll route s.queues s.ingress).map (fun p => (p.1, ([] : List Envelope))) := by
      simp [mstep, hc']
    intro p hp
    rw [hqs] at hp
    rcases List.mem_map.mp hp with ⟨a, _, rfl⟩
    rfl

/-- C4: shutdown safety. After `shutdown()` returns, no envelope remains
buffered in the ingress queue or in any sink queue; and on the run that
follows, the manifold state never changes again and the only events ever
emitted are `ShuttingDown` rejections of `enqueue` — in particular no sink's
`batch_publish`, `flush` or `close` is ever invoked again. -/
theorem claim_C4_shutdown_safety (qcap : Nat) (route : Envelope → List Nat)
    (sinkIds : List Nat) (cmds1 cmds2 : List Cmd) :
    ((mrun qcap route (initMState sinkIds) (cmds1 ++ [Cmd.shutdown])).1.ingress = [] ∧
     ∀ p ∈ (mrun qcap route (initMState sinkIds) (cmds1 ++ [Cmd.shutdown])).1.queues,
       p.2 = ([] : List Envelope)) ∧
    (mrun qcap route
      (mrun qcap route (initMState sinkIds) (cmds1 ++ [Cmd.shutdown])).1 cmds2).1 =
      (mrun qcap route (initMState sinkIds) (cmds1 ++ [Cmd.shutdown])).1 ∧
    ∀ ev ∈ (mrun qcap route
      (mrun qcap route (initMState sinkIds) (cmds1 ++ [Cmd.shutdown])).1 cmds2).2,
      ev = Evt.enq EnqueueResult.ShuttingDown := by
  have hinit : MClosedEmpty (initMState sinkIds) := by
    intro hcl
    simp [initMState] at hcl
  have hrunApp : ∀ (s : MState) (l1 l2 : List Cmd),
      (mrun qcap route s (l1 ++ l2)).1 = (mrun qcap route (mrun qcap route s l1).1 l2).1 := by
    intro s l1 l2
    induction l1 generalizing s with
    | nil => simp [mrun]
    | cons c cs ih => exact ih (mstep qcap route s c).1
  have hA : MClosedEmpty (mrun qcap route (initMState sinkIds) cmds1).1 :=
    mrun_preserves_MClosedEmpty qcap route _ cmds1 hinit
  have hshape := mstep_shutdown_drains qcap route
    (mrun qcap route (initMState sinkIds) cmds1).1 hA
  have hfin : (mrun qcap route (initMState sinkIds) (cmds1 ++ [Cmd.shutdown])).1 =
      (mstep qcap route (mrun qcap route (initMState sinkIds) cmds1).1 Cmd.shutdown).1 := by
    rw [hrunApp]
    simp [mrun]
  have hclosed : (mrun qcap route (initMState sinkIds) (cmds1 ++ [Cmd.shutdown])).1.closed = true := by
    rw [hfin]; exact hshape.1
  have hrc := mrun_closed qcap route
    (mrun qcap route (initMState sinkIds) (cmds1 ++ [Cmd.shutdown])).1 cmds2 hclosed
  refine ⟨⟨?_, ?_⟩, hrc.1, hrc.2⟩
  · rw [hfin]; exact hshape.2.1
  · rw [hfin]; exact hshape.2.2

/-- Evaluation witness for C4 at a concrete run: one accepted envelope, a
shutdown, then a rejected enqueue. -/
theorem claim_C4_shutdown_safety_witness :
    (mrun 4 routeToZero (initMState [0])
      ([Cmd.enqueue sampleEnvelope] ++ [Cmd.shutdown])).1.ingress = [] ∧
    (mrun 4 routeToZero
      (mrun 4 routeToZero (initMState [0])
        ([Cmd.enqueue sampleEnvelope] ++ [Cmd.shutdown])).1
      [Cmd.enqueue sampleEnvelope2]).1 =
    (mrun 4 routeToZero (initMState [0])
      ([Cmd.enqueue sampleEnvelope] ++ [Cmd.shutdown])).1 :=
  ⟨(claim_C4_shutdown_safety 4 routeToZero [0]
      [Cmd.enqueue sampleEnvelope] [Cmd.enqueue sampleEnvelope2]).1.1,
   (claim_C4_shutdown_safety 4 routeToZero [0]
      [Cmd.enqueue sampleEnvelope] [Cmd.enqueue sampleEnvelope2]).2.1⟩

end Buz

namespace Buz

/-- Looking up the key just set returns the value just set. -/
theorem alookup_aset_self {α : Type} (l : List (String × α)) (k : String) (v : α) :
    alookup (aset l k v) k = some v := by
  induction l with
  | nil => simp [aset, alookup]
  | cons p rest ih =>
    rcases p with ⟨k0, v0⟩
    by_cases h : k0 = k
    · simp [aset, h, alookup]
    · simp [aset, h, alookup, ih]

/-- Setting one key leaves lookups of other keys unchanged. -/
theorem alookup_aset_ne {α : Type} (l : List (String × α)) (k k' : String) (v : α)
    (h : k' ≠ k) :
    alookup (aset l k v) k' = alookup l k' := by
  have hkk : ¬(k = k') := fun he => h he.symm
  induction l with
  | nil => simp [aset, alookup, hkk]
  | cons p rest ih =>
    rcases p with ⟨k0, v0⟩
    by_cases h0 : k0 = k
    · subst h0
      simp [aset, alookup, hkk]
    · simp [aset, h0, alookup, ih]

/-- The callers of key `k` after one more `get` event. -/
theorem callersFor_snoc (k : String) (gets : List (Nat × String)) (c : Nat)
    (k2 : String) :
    callersFor k (gets ++ [(c, k2)]) =
      callersFor k gets ++ (if k2 = k then [c] else []) := by
  by_cases h : k2 = k
  · subst h
    simp [callersFor, List.filter_append]
  · simp [callersFor, List.filter_append, h]

/-- A caller that asked for `k` is among the callers of `k`. -/
theorem mem_callersFor (c : Nat) (k : String) (gets : List (Nat × String))
    (h : (c, k) ∈ gets) : c ∈ callersFor k gets := by
  refine List.mem_map.mpr ⟨(c, k), ?_, rfl⟩
  refine List.mem_filter.mpr ⟨h, ?_⟩
  simp

/-- A `get` on an absent key installs the pending slot and logs one backend
invocation. -/
theorem cstep_get_new (s : CoalesceState) (c : Nat) (k : String)
    (hl : alookup s.slots k = none) :
    cstep s (CacheOp.get c k) =
      { slots := aset s.slots k (CacheSlot.pending [c]),
        backendCalls := s.backendCalls ++ [k], results := s.results } := by
  simp [cstep, hl]

/-- A `get` on a pending key only appends the caller to the waiter list. -/
theorem cstep_get_pending (s : CoalesceState) (c : Nat) (k : String)
    (ws : List Nat) (hl : alookup s.slots k = some (CacheSlot.pending ws)) :
    cstep s (CacheOp.get c k) =
      { slots := aset s.slots k (CacheSlot.pending (ws ++ [c])),
        backendCalls := s.backendCalls, results := s.results } := by
  simp [cstep, hl]

/-- A completion on a pending key publishes the entry to every waiter. -/
theorem cstep_complete_pending (s : CoalesceState) (k : String)
    (ent : CacheEntry) (ws : List Nat)
    (hl : alookup s.slots k = some (CacheSlot.pending ws)) :
    cstep s (CacheOp.complete k ent) =
      { slots := aset s.slots k (CacheSlot.ready ent),
        backendCalls := s.backendCalls,
        results := s.results ++ ws.map (fun c => (c, ent)) } := by
  simp [cstep, hl]

/-- One more concurrent `get` before the first completion preserves the
coalescing shape: a first request installs the pending slot and invokes the
backend once; any further request only joins the waiter list. -/
theorem getsShape_get (gets : List (Nat × String)) (c : Nat) (k : String)
    (s : CoalesceState) (h : GetsShape gets s) :
    GetsShape (gets ++ [(c, k)]) (cstep s (CacheOp.get c k)) := by
  obtain ⟨h1, h2, h3⟩ := h
  by_cases hc : callersFor k gets = []
  · have hl : alookup s.slots k = none := by rw [h1 k, if_pos hc]
    rw [cstep_get_new s c k hl]
    refine ⟨?_, ?_, h3⟩
    · intro k'
      by_cases hk : k' = k
      · subst hk
        rw [callersFor_snoc k' gets c k', if_pos rfl, hc, List.nil_append]
        simp [alookup_aset_self]
      · have hkk : ¬(k = k') := fun he => hk he.symm
        rw [callersFor_snoc k' gets c k, if_neg hkk, List.append_nil]
        show alookup (aset s.slots k (CacheSlot.pending [c])) k' = _
        rw [alookup_aset_ne s.slots k k' (CacheSlot.pending [c]) hk]
        exact h1 k'
    · intro k'
      by_cases hk : k' = k
      · subst hk
        rw [callersFor_snoc k' gets c k', if_pos rfl, hc, List.nil_append]
        have hcount := h2 k'
        rw [if_pos hc] at hcount
        show List.count k' (s.backendCalls ++ [k']) = _
        simp [List.count_append, hcount]
      · have hkk : ¬(k = k') := fun he => hk he.symm
        rw [callersFor_snoc k' gets c k, if_neg hkk, List.append_nil]
        show List.count k' (s.backendCalls ++ [k]) = _
        have hcnt : List.count k' (s.backendCalls ++ [k]) =
            List.count k' s.backendCalls := by
          simp [List.count_append, List.count_cons, hk]
        rw [hcnt]
        exact h2 k'
  · have hl : alookup s.slots k = some (CacheSlot.pending (callersFor k gets)) := by
      rw [h1 k, if_neg hc]
    rw [cstep_get_pending s c k (callersFor k gets) hl]
    refine ⟨?_, ?_, h3⟩
    · intro k'
      by_cases hk : k' = k
      · subst hk
        rw [callersFor_snoc k' gets c k', if_pos rfl]
        have hne2 : callersFor k' gets ++ [c] ≠ [] := by simp
        rw [if_neg hne2]
        show alookup (aset s.slots k' (CacheSlot.pending (callersFor k' gets ++ [c]))) k' = _
        rw [alookup_aset_self]
      · have hkk : ¬(k = k') := fun he => hk he.symm
        rw [callersFor_snoc k' gets c k, if_neg hkk, List.append_nil]
        show alookup (aset s.slots k (CacheSlot.pending (callersFor k gets ++ [c]))) k' = _
        rw [alookup_aset_ne s.slots k k' _ hk]
        exact h1 k'
    · intro k'
      by_cases hk : k' = k
      · subst hk
        rw [callersFor_snoc k' gets c k', if_pos rfl]
        have hne2 : callersFor k' gets ++ [c] ≠ [] := by simp
        rw [if_neg hne2]
        have hcount := h2 k'
        rw [if_neg hc] at hcount
        exact hcount
      · have hkk : ¬(k = k') := fun he => hk he.symm
        rw [callersFor_snoc k' gets c k, if_neg hkk, List.append_nil]
        exact h2 k'

/-- Running a concatenation of event lists is running them in sequence. -/
theorem crun_append (s : CoalesceState) (l1 l2 : List CacheOp) :
    crun s (l1 ++ l2) = crun (crun s l1) l2 := by
  induction l1 generalizing s with
  | nil => rfl
  | cons op ops ih => exact ih (cstep s op)

/-- After any interleaving of `get` events (and before any completion) the
coalescing cache has the canonical shape: pending slots holding exactly the
callers, one backend invocation per requested key, no results yet. -/
theorem getsShape_run (gets : List (Nat × String)) :
    GetsShape gets (crun initCState (gets.map (fun p => CacheOp.get p.1 p.2))) := by
  induction gets using List.reverseRecOn with
  | nil =>
    refine ⟨?_, ?_, rfl⟩
    · intro k
      simp [callersFor, initCState, crun, alookup]
    · intro k
      simp [callersFor, initCState, crun]
  | append_singleton gets p ih =>
    rcases p with ⟨c, k⟩
    rw [List.map_append, crun_append]
    exact getsShape_get gets c k _ ih

/-- When the single in-flight resolution completes, the entry is published
to every waiting caller and the backend-invocation count stays at one. -/
theorem cstep_complete_delivers (gets : List (Nat × String)) (k : String)
    (ent : CacheEntry) (s : CoalesceState) (h : GetsShape gets s)
    (hne : callersFor k gets ≠ []) :
    List.count k (cstep s (CacheOp.complete k ent)).backendCalls = 1 ∧
    ∀ c ∈ callersFor k gets,
      (c, ent) ∈ (cstep s (CacheOp.complete k ent)).results := by
  obtain ⟨h1, h2, h3⟩ := h
  have hl : alookup s.slots k = some (CacheSlot.pending (callersFor k gets)) := by
    rw [h1 k, if_neg hne]
  rw [cstep_complete_pending s k ent (callersFor k gets) hl]
  constructor
  · have hcount := h2 k
    rw [if_neg hne] at hcount
    exact hcount
  · intro c hcmem
    show (c, ent) ∈ s.results ++ (callersFor k gets).map (fun c => (c, ent))
    rw [h3, List.nil_append]
    exact List.mem_map.mpr ⟨c, hcmem, rfl⟩

/-- C5: cache coalescing. For every key `k`, if all `get(k)` calls are
issued before the first resolution of `k` completes (an arbitrary
interleaving of `get` events over any keys, followed by the completion for
`k`), the backend is invoked exactly once for `k`, and every caller that
asked for `k` receives the same entry — the one the single in-flight
resolution produced. -/
theorem claim_C5_cache_coalescing (gets : List (Nat × String)) (k : String)
    (ent : CacheEntry) (c0 : Nat) (h0 : (c0, k) ∈ gets) :
    List.count k (crun initCState ((gets.map (fun p => CacheOp.get p.1 p.2)) ++
        [CacheOp.complete k ent])).backendCalls = 1 ∧
    ∀ c, (c, k) ∈ gets →
      (c, ent) ∈ (crun initCState ((gets.map (fun p => CacheOp.get p.1 p.2)) ++
        [CacheOp.complete k ent])).results := by
  have hshape := getsShape_run gets
  have hne : callersFor k gets ≠ [] := by
    intro hnil
    have hmem := mem_callersFor c0 k gets h0
    rw [hnil] at hmem
    exact absurd hmem (List.not_mem_nil c0)
  rw [crun_append]
  have hone : crun (crun initCState (gets.map (fun p => CacheOp.get p.1 p.2)))
      [CacheOp.complete k ent] =
      cstep (crun initCState (gets.map (fun p => CacheOp.get p.1 p.2)))
        (CacheOp.complete k ent) := rfl
  rw [hone]
  have hdel := cstep_complete_delivers gets k ent _ hshape hne
  exact ⟨hdel.1, fun c hc => hdel.2 c (mem_callersFor c k gets hc)⟩

/-- Evaluation witness for C5: two concurrent callers of the same key ahead
of the single completion; one backend call, both callers served the same
entry. -/
theorem claim_C5_cache_coalescing_witness :
    ((0, "iglu:k") ∈ [((0 : Nat), "iglu:k"), (1, "iglu:k")]) ∧
    List.count "iglu:k" (crun initCState
      (([((0 : Nat), "iglu:k"), (1, "iglu:k")].map (fun p => CacheOp.get p.1 p.2)) ++
        [CacheOp.complete "iglu:k" sampleEntry])).backendCalls = 1 ∧
    ((1, sampleEntry) ∈ (crun initCState
      (([((0 : Nat), "iglu:k"), (1, "iglu:k")].map (fun p => CacheOp.get p.1 p.2)) ++
        [CacheOp.complete "iglu:k" sampleEntry])).results) := by
  refine ⟨by decide, ?_, ?_⟩
  · exact (claim_C5_cache_coalescing [(0, "iglu:k"), (1, "iglu:k")] "iglu:k"
      sampleEntry 0 (by decide)).1
  · exact (claim_C5_cache_coalescing [(0, "iglu:k"), (1, "iglu:k")] "iglu:k"
      sampleEntry 0 (by decide)).2 1 (by decide)

end Buz

namespace Buz

/-- C6: the cache `get` contract. A present, unexpired entry is returned
as-is with the cache untouched; otherwise (absent or expired) a successful
backend fetch is compiled, inserted and returned — and a failed compilation
still yields a cached entry whose `compile_error` records the cause and
whose `raw_bytes` are the fetched bytes. -/
theorem claim_C6_cache_get_contract (backend : String → FetchResult)
    (compile : List Nat → Except String CompiledSchema)
    (ttl : Option Nat) (now : Nat) (c : SchemaCache) (k : String) :
    (∀ ent, alookup c.entries k = some ent → entryExpired ttl now ent = false →
      cacheGet backend compile ttl now c k = (Except.ok ent, c)) ∧
    ((alookup c.entries k = none ∨
      (∃ ent, alookup c.entries k = some ent ∧ entryExpired ttl now ent = true)) →
      ∀ bytes, backend k = FetchResult.ok bytes →
        cacheGet backend compile ttl now c k =
          (Except.ok (compileEntry compile now bytes),
           { entries := aset c.entries k (compileEntry compile now bytes) }) ∧
        alookup (cacheGet backend compile ttl now c k).2.entries k =
          some (compileEntry compile now bytes)) ∧
    (∀ bytes msg, compile bytes = Except.error msg →
      (compileEntry compile now bytes).compile_error = some msg ∧
      (compileEntry compile now bytes).raw_bytes = bytes) := by
  refine ⟨?_, ?_, ?_⟩
  · intro ent hent hexp
    simp [cacheGet, hent, hexp]
  · intro hmiss bytes hb
    have hfetch : cacheFetch backend compile now c k =
        (Except.ok (compileEntry compile now bytes),
         { entries := aset c.entries k (compileEntry compile now bytes) }) := by
      simp [cacheFetch, hb]
    have hget : cacheGet backend compile ttl now c k =
        cacheFetch backend compile now c k := by
      rcases hmiss with hnone | ⟨ent, hent, hexp⟩
      · simp [cacheGet, hnone]
      · simp [cacheGet, hent, hexp]
    refine ⟨by rw [hget, hfetch], ?_⟩
    rw [hget, hfetch]
    exact alookup_aset_self c.entries k (compileEntry compile now bytes)
  · intro bytes msg hcomp
    simp [compileEntry, hcomp]

/-- Evaluation witness for C6: a hit on an unexpired entry returns it
unchanged; a miss on an empty cache fetches, compiles, inserts and returns;
a failing compiler still produces a cacheable entry recording the error. -/
theorem claim_C6_cache_get_contract_witness :
    (alookup ({ entries := [("a", sampleEntry)] } : SchemaCache).entries "a" =
        some sampleEntry ∧
      entryExpired (some 10) 3 sampleEntry = false ∧
      cacheGet (fun _ => FetchResult.ok [1, 2]) (fun _ => Except.ok { sid := 5 })
        (some 10) 3 { entries := [("a", sampleEntry)] } "a" =
        (Except.ok sampleEntry, { entries := [("a", sampleEntry)] })) ∧
    (alookup ({ entries := [] } : SchemaCache).entries "a" = none ∧
      cacheGet (fun _ => FetchResult.ok [1, 2]) (fun _ => Except.ok { sid := 5 })
        (some 10) 3 { entries := [] } "a" =
        (Except.ok (compileEntry (fun _ => Except.ok { sid := 5 }) 3 [1, 2]),
         { entries := aset [] "a" (compileEntry (fun _ => Except.ok { sid := 5 }) 3 [1, 2]) })) ∧
    ((compileEntry (fun _ => Except.error "bad schema") 3 [1, 2]).compile_error =
      some "bad schema") := by
  refine ⟨⟨by decide, by decide, ?_⟩, ⟨by decide, ?_⟩, ?_⟩
  · exact (claim_C6_cache_get_contract (fun _ => FetchResult.ok [1, 2])
      (fun _ => Except.ok { sid := 5 }) (some 10) 3
      { entries := [("a", sampleEntry)] } "a").1 sampleEntry (by decide) (by decide)
  · exact ((claim_C6_cache_get_contract (fun _ => FetchResult.ok [1, 2])
      (fun _ => Except.ok { sid := 5 }) (some 10) 3
      { entries := [] } "a").2.1 (Or.inl (by decide)) [1, 2] rfl).1
  · exact ((claim_C6_cache_get_contract (fun _ => FetchResult.ok [1, 2])
      (fun _ => Except.error "bad schema") (some 10) 3
      { entries := [] } "a").2.2 [1, 2] "bad schema" rfl).1

/-- C8 evaluation: in `cmd/buz/app.go` the stats ops route is always
registered with a handler built from `a.collectorMeta`
(`handler.StatsHandler(a.collectorMeta)`, the line carrying the FIXME
"Pass manifold here, as it will have the statistics"), not from the
manifold's `get_stats()` — contrary to the claim and to the spec, the
handler sources of the ops routes never include `manifoldStats`. -/
theorem claim_C8_stats_route_source :
    (initializeOpsRoutes true).map (fun r => r.handler) =
      [HandlerArg.collectorMeta, HandlerArg.configValue, HandlerArg.configValue] ∧
    (initializeOpsRoutes false).map (fun r => r.handler) =
      [HandlerArg.collectorMeta, HandlerArg.configValue] ∧
    (initializeOpsRoutes true).head? =
      some { method := Method.GET, path := OpsPath.stats,
             handler := HandlerArg.collectorMeta } ∧
    (initializeOpsRoutes false).head? =
      some { method := Method.GET, path := OpsPath.stats,
             handler := HandlerArg.collectorMeta } := by
  decide

/-- C9: a failure of registry initialization, sink building/initialization,
or manifold initialization during startup is fatal — `appStartup` ends in
`fatalExit` (the `log.Fatal` calls of `App.initializeManifold`), never in
`serving`. -/
theorem claim_C9_startup_failures_fatal (rInit : Except String Unit)
    (sInit : Except String (List SinkDescriptor))
    (mInit : List SinkDescriptor → Except String Unit) :
    (∀ msg, rInit = Except.error msg →
      appStartup rInit sInit mInit = StartupOutcome.fatalExit) ∧
    (∀ msg, sInit = Except.error msg →
      appStartup rInit sInit mInit = StartupOutcome.fatalExit) ∧
    (∀ sinks msg, sInit = Except.ok sinks → mInit sinks = Except.error msg →
      appStartup rInit sInit mInit = StartupOutcome.fatalExit) := by
  refine ⟨?_, ?_, ?_⟩
  · intro msg hr
    simp [appStartup, initializeManifold, hr]
  · intro msg hs
    cases rInit with
    | error msg2 => simp [appStartup, initializeManifold]
    | ok u => simp [appStartup, initializeManifold, hs]
  · intro sinks msg hs hm
    cases rInit with
    | error msg2 => simp [appStartup, initializeManifold]
    | ok u => simp [appStartup, initializeManifold, hs, hm]

/-- Evaluation witness for C9 at concrete failing initializations: a failing
registry, failing sink building, and a failing manifold initialization each
end in `fatalExit`. -/
theorem claim_C9_startup_failures_fatal_witness :
    (appStartup (Except.error "registry down") (Except.ok [])
      (fun _ => Except.ok ()) = StartupOutcome.fatalExit) ∧
    (appStartup (Except.ok ()) (Except.error "sink down")
      (fun _ => Except.ok ()) = StartupOutcome.fatalExit) ∧
    (appStartup (Except.ok ()) (Except.ok [])
      (fun _ => Except.error "manifold down") = StartupOutcome.fatalExit) :=
  ⟨(claim_C9_startup_failures_fatal (Except.error "registry down")
      (Except.ok []) (fun _ => Except.ok ())).1 "registry down" rfl,
   (claim_C9_startup_failures_fatal (Except.ok ())
      (Except.error "sink down") (fun _ => Except.ok ())).2.1 "sink down" rfl,
   (claim_C9_startup_failures_fatal (Except.ok ())
      (Except.ok []) (fun _ => Except.error "manifold down")).2.2
      [] "manifold down" rfl rfl⟩

/-- C10: the cache-purge routes (GET and POST) are registered iff
`Registry.Purge.Enabled`, the schema-serving route iff
`Registry.Http.Enabled`; with both flags off no schema-cache route exists
(`App.initializeSchemaCacheRoutes`, `cmd/buz/app.go` lines 169–180). -/
theorem claim_C10_schema_cache_routes (purgeEnabled httpEnabled : Bool) :
    (({ method := Method.GET, path := OpsPath.cachePurge,
        handler := HandlerArg.registryHandle } : RegisteredRoute) ∈
        initializeSchemaCacheRoutes purgeEnabled httpEnabled ↔
      purgeEnabled = true) ∧
    (({ method := Method.POST, path := OpsPath.cachePurge,
        handler := HandlerArg.registryHandle } : RegisteredRoute) ∈
        initializeSchemaCacheRoutes purgeEnabled httpEnabled ↔
      purgeEnabled = true) ∧
    (({ method := Method.GET, path := OpsPath.schemas,
        handler := HandlerArg.registryHandle } : RegisteredRoute) ∈
        initializeSchemaCacheRoutes purgeEnabled httpEnabled ↔
      httpEnabled = true) ∧
    (purgeEnabled = false → httpEnabled = false →
      initializeSchemaCacheRoutes purgeEnabled httpEnabled = []) := by
  cases purgeEnabled <;> cases httpEnabled <;> decide

/-- Evaluation witness for C10 at both flag settings: no route with both
flags off; the purge route present with the purge flag on. -/
theorem claim_C10_schema_cache_routes_witness :
    initializeSchemaCacheRoutes false false = [] ∧
    (({ method := Method.GET, path := OpsPath.cachePurge,
        handler := HandlerArg.registryHandle } : RegisteredRoute) ∈
      initializeSchemaCacheRoutes true true) :=
  ⟨(claim_C10_schema_cache_routes false false).2.2.2 rfl rfl,
   ((claim_C10_schema_cache_routes true true).1).mpr rfl⟩

end Buz
